import Mathlib

/-!
Shallow embedding of the compiler front end in frontendcompiler.cpp:
a Lexer producing classified tokens with line/column tracking, an AST
node hierarchy with indented rendering, a SymbolTable mapping names to
types, and a recursive-descent Parser for the single production
  Declaration := "int" Identifier "=" Number ";"
Character classification follows the C library functions (isspace,
isalpha, isdigit, isalnum, ispunct) on ASCII, expressed on code points.
The C++ int is modelled as a 32-bit signed integer where its range
matters (std.stoi range checking).
-/

namespace FrontEnd

/-- C isspace: space, tab, newline, vertical tab, form feed, carriage return. -/
def isspace (c : Char) : Bool :=
  decide (c.toNat = 32 ∨ (9 ≤ c.toNat ∧ c.toNat ≤ 13))

/-- C isalpha on ASCII: uppercase or lowercase letter. -/
def isalpha (c : Char) : Bool :=
  decide ((65 ≤ c.toNat ∧ c.toNat ≤ 90) ∨ (97 ≤ c.toNat ∧ c.toNat ≤ 122))

/-- C isdigit: decimal digit. -/
def isdigit (c : Char) : Bool :=
  decide (48 ≤ c.toNat ∧ c.toNat ≤ 57)

/-- C isalnum: letter or digit. -/
def isalnum (c : Char) : Bool :=
  isalpha c || isdigit c

/-- C ispunct on ASCII: printable, not alphanumeric, not space. -/
def ispunct (c : Char) : Bool :=
  decide ((33 ≤ c.toNat ∧ c.toNat ≤ 126) ∧ ¬ isalnum c = true)

/-- enum class TokenType. -/
inductive TokenType where
  | Identifier
  | Number
  | Keyword
  | Symbol
  | EndOfFile
  | Unknown
deriving DecidableEq

/-- struct Token: kind, lexeme text, and line/column position. -/
structure Token where
  type : TokenType
  value : String
  line : Nat
  column : Nat
deriving DecidableEq

/-- The Lexer state: source buffer, cursor position, line and column. -/
structure LexerState where
  src : List Char
  pos : Nat
  line : Nat
  column : Nat
deriving DecidableEq

/-- Lexer constructor: pos 0, line 1, column 1. -/
def initLexer (s : String) : LexerState :=
  ⟨s.data, 0, 1, 1⟩

/-- Lexer.advance: newline increments line and resets column, any other
character increments column; pos always increments. -/
def advance (st : LexerState) : LexerState :=
  if st.src.getD st.pos ' ' = '\n' then ⟨st.src, st.pos + 1, st.line + 1, 1⟩
  else ⟨st.src, st.pos + 1, st.line, st.column + 1⟩

/-- The whitespace-skipping loop of nextToken, fuel-indexed. Each
iteration consumes one character, so fuel src.length - pos makes the
fuel-indexed loop agree with the C++ while loop. -/
def skipWsAux : Nat → LexerState → LexerState
  | 0, st => st
  | fuel + 1, st =>
      if st.pos < st.src.length ∧ isspace (st.src.getD st.pos ' ') then
        skipWsAux fuel (advance st)
      else st

/-- while (pos < src.size() and isspace(src[pos])) advance(). -/
def skipWs (st : LexerState) : LexerState :=
  skipWsAux (st.src.length - st.pos) st

/-- The alnum-scanning loop of Lexer.identifier, fuel-indexed. -/
def scanAlnumAux : Nat → LexerState → LexerState
  | 0, st => st
  | fuel + 1, st =>
      if st.pos < st.src.length ∧ isalnum (st.src.getD st.pos ' ') then
        scanAlnumAux fuel (advance st)
      else st

/-- while (pos < src.size() and isalnum(src[pos])) advance(). -/
def scanAlnum (st : LexerState) : LexerState :=
  scanAlnumAux (st.src.length - st.pos) st

/-- The digit-scanning loop of Lexer.number, fuel-indexed. -/
def scanDigitsAux : Nat → LexerState → LexerState
  | 0, st => st
  | fuel + 1, st =>
      if st.pos < st.src.length ∧ isdigit (st.src.getD st.pos ' ') then
        scanDigitsAux fuel (advance st)
      else st

/-- while (pos < src.size() and isdigit(src[pos])) advance(). -/
def scanDigits (st : LexerState) : LexerState :=
  scanDigitsAux (st.src.length - st.pos) st

/-- Lexer.identifier: scan a maximal alphanumeric run, classify as
Keyword exactly when the lexeme is "int" or "return"; the token carries
the line/column reached after the scan. Returns the token and the
updated lexer state. -/
def identifier (st : LexerState) : Token × LexerState :=
  let start := st.pos
  let st1 := scanAlnum st
  let val := String.mk ((st.src.drop start).take (st1.pos - start))
  (⟨if val = "int" ∨ val = "return" then TokenType.Keyword else TokenType.Identifier,
    val, st1.line, st1.column⟩, st1)

/-- Lexer.number: scan a maximal digit run; the token carries the
line/column reached after the scan. -/
def number (st : LexerState) : Token × LexerState :=
  let start := st.pos
  let st1 := scanDigits st
  (⟨TokenType.Number, String.mk ((st.src.drop start).take (st1.pos - start)),
    st1.line, st1.column⟩, st1)

/-- Lexer.symbol: consumes one character via pos++ only, so line and
column of the state are not updated. -/
def symbol (st : LexerState) : Token × LexerState :=
  (⟨TokenType.Symbol, String.mk [st.src.getD st.pos ' '], st.line, st.column⟩,
    ⟨st.src, st.pos + 1, st.line, st.column⟩)

/-- Lexer.nextToken: skip whitespace, then EndOfFile past the end, or
dispatch on the first character class; the fallthrough consumes one
character via pos++ as Unknown. -/
def nextToken (st : LexerState) : Token × LexerState :=
  let w := skipWs st
  if w.pos < w.src.length then
    let c := w.src.getD w.pos ' '
    if isalpha c then identifier w
    else if isdigit c then number w
    else if ispunct c then symbol w
    else (⟨TokenType.Unknown, String.mk [c], w.line, w.column⟩,
          ⟨w.src, w.pos + 1, w.line, w.column⟩)
  else (⟨TokenType.EndOfFile, "", w.line, w.column⟩, w)

/-- First n tokens produced by repeatedly calling nextToken. -/
def lexN : Nat → LexerState → List Token
  | 0, _ => []
  | n + 1, st =>
      let r := nextToken st
      r.1 :: lexN n r.2

/-- The AST node hierarchy: NumberNode, IdentifierNode, DeclarationNode.
The value child of a DeclarationNode is a nullable pointer in the
source, hence an Option here. -/
inductive ASTNode where
  | number (value : Int)
  | identifier (name : String)
  | declaration (type : String) (name : String) (value : Option ASTNode)

/-- A run of n space characters, as std.string(n, ' '). -/
def spaces (n : Nat) : String :=
  String.mk (List.replicate n ' ')

/-- The print methods of the AST nodes: each node renders its own line
left-padded with the indent, and a DeclarationNode renders its child,
when non-null, at indent + 2. -/
def render : ASTNode → Nat → String
  | ASTNode.number v, ind => spaces ind ++ "Number: " ++ toString v ++ "\n"
  | ASTNode.identifier nm, ind => spaces ind ++ "Identifier: " ++ nm ++ "\n"
  | ASTNode.declaration ty nm (some v), ind =>
      spaces ind ++ "Declaration: " ++ ty ++ " " ++ nm ++ "\n" ++ render v (ind + 2)
  | ASTNode.declaration ty nm none, ind =>
      spaces ind ++ "Declaration: " ++ ty ++ " " ++ nm ++ "\n"

/-- INT_MAX for the 32-bit int of the reference platform. -/
def intMax : Int := 2 ^ 31 - 1

/-- INT_MIN for the 32-bit int of the reference platform. -/
def intMin : Int := -(2 ^ 31)

/-- The two failure modes of std.stoi: std.invalid_argument when no
digits can be converted, std.out_of_range when the value does not fit
in int. -/
inductive StoiError where
  | invalidArgument
  | outOfRange
deriving DecidableEq

/-- Decimal value of a digit run. -/
def digitsToNat (ds : List Char) : Nat :=
  ds.foldl (fun a c => a * 10 + (c.toNat - 48)) 0

/-- std.stoi in base 10: skip whitespace, an optional sign, then a
maximal digit run; invalid_argument when the digit run is empty,
out_of_range when the signed value falls outside int. -/
def stoi (s : String) : Except StoiError Int :=
  let cs := s.data.dropWhile isspace
  let sign : Int := if cs.headD ' ' = '-' then -1 else 1
  let cs2 := if cs.headD ' ' = '-' ∨ cs.headD ' ' = '+' then cs.tail else cs
  let ds := cs2.takeWhile isdigit
  if ds = [] then Except.error StoiError.invalidArgument
  else
    let v : Int := sign * (digitsToNat ds : Nat)
    if v < intMin ∨ intMax < v then Except.error StoiError.outOfRange
    else Except.ok v

/-- SymbolTable: std.map from name to type, as an association list with
at most one entry per key. -/
structure SymbolTable where
  symbols : List (String × String)
deriving DecidableEq

/-- Insert-or-assign on the association list, as symbols[name] = type. -/
def updateAssoc : List (String × String) → String → String → List (String × String)
  | [], n, t => [(n, t)]
  | (k, v) :: rest, n, t =>
      if k = n then (n, t) :: rest else (k, v) :: updateAssoc rest n t

/-- SymbolTable.declare: symbols[name] = type. -/
def SymbolTable.declare (tbl : SymbolTable) (name ty : String) : SymbolTable :=
  ⟨updateAssoc tbl.symbols name ty⟩

/-- SymbolTable.exists: find(name) != end(). -/
def SymbolTable.existsName (tbl : SymbolTable) (name : String) : Bool :=
  (tbl.symbols.find? (fun p => p.1 = name)).isSome

/-- SymbolTable.typeOf: the mapped type, or the empty string if absent. -/
def SymbolTable.typeOf (tbl : SymbolTable) (name : String) : String :=
  match tbl.symbols.find? (fun p => p.1 = name) with
  | some p => p.2
  | none => ""

/-- The empty symbol table. -/
def SymbolTable.empty : SymbolTable := ⟨[]⟩

/-- Parser state: the owned Lexer plus the single lookahead token. -/
structure ParserState where
  lex : LexerState
  current : Token
deriving DecidableEq

/-- Parser.advance: current = lexer.nextToken(). -/
def pAdvance (p : ParserState) : ParserState :=
  let r := nextToken p.lex
  ⟨r.2, r.1⟩

/-- The Parser constructor: pull the first token. -/
def mkParser (ls : LexerState) : ParserState :=
  let r := nextToken ls
  ⟨r.2, r.1⟩

/-- Outcome of parseDeclaration: ok is a returned AST, err is a nullptr
return after a diagnostic line on stderr (the err constructor carries no
AST), exn is an exception escaping from std.stoi. Each carries the
parser state at that point. -/
inductive ParseResult where
  | ok (ast : ASTNode) (st : ParserState)
  | err (diag : String) (st : ParserState)
  | exn (e : StoiError) (st : ParserState)

/-- Parser.parseDeclaration: five sequential checkpoints for the
production int Identifier = Number ; with a terminal failure at each. -/
def parseDeclaration (p : ParserState) : ParseResult :=
  if p.current.type = TokenType.Keyword ∧ p.current.value = "int" then
    let ty := p.current.value
    let p1 := pAdvance p
    if ¬ p1.current.type = TokenType.Identifier then
      ParseResult.err "Expected identifier after \x27int\x27\n" p1
    else
      let nm := p1.current.value
      let p2 := pAdvance p1
      if ¬ (p2.current.type = TokenType.Symbol ∧ p2.current.value = "=") then
        ParseResult.err "Expected \x27=\x27 after identifier\n" p2
      else
        let p3 := pAdvance p2
        if ¬ p3.current.type = TokenType.Number then
          ParseResult.err "Expected number after \x27=\x27\n" p3
        else
          match stoi p3.current.value with
          | Except.error e => ParseResult.exn e p3
          | Except.ok val =>
            let p4 := pAdvance p3
            if ¬ (p4.current.type = TokenType.Symbol ∧ p4.current.value = ";") then
              ParseResult.err "Expected \x27;\x27 at the end of declaration\n" p4
            else
              let p5 := pAdvance p4
              ParseResult.ok (ASTNode.declaration ty nm (some (ASTNode.number val))) p5
  else ParseResult.err ("Unexpected token: " ++ p.current.value ++ "\n") p

/-- True exactly when the result is the invalid_argument exception. -/
def isInvalidArgExn : ParseResult → Bool
  | ParseResult.exn StoiError.invalidArgument _ => true
  | _ => false

/-- True exactly when the result is the out_of_range exception. -/
def isOutOfRangeExn : ParseResult → Bool
  | ParseResult.exn StoiError.outOfRange _ => true
  | _ => false

/-- Substring test on the underlying character lists. -/
def containsStr (hay needle : String) : Bool :=
  decide (needle.data <:+: hay.data)

/-- Modelled from the spec wording of claim C9, for the refinement
comparison: the type argument of the last declare for n in the call
sequence, or the empty string if none occurred. -/
def lastDeclaredType (n : String) (ops : List (String × String)) : String :=
  match ops.reverse.find? (fun p => p.1 = n) with
  | some p => p.2
  | none => ""

/-- Fold a sequence of declare calls over the empty table. -/
def runDeclares (ops : List (String × String)) : SymbolTable :=
  ops.foldl (fun t p => t.declare p.1 p.2) SymbolTable.empty

/-! ## Helper lemmas -/

theorem advance_src (st : LexerState) : (advance st).src = st.src := by
  unfold advance; split <;> rfl

theorem advance_pos (st : LexerState) : (advance st).pos = st.pos + 1 := by
  unfold advance; split <;> rfl

theorem scanDigitsAux_pos_le (fuel : Nat) :
    ∀ st : LexerState, st.pos ≤ (scanDigitsAux fuel st).pos := by
  induction fuel with
  | zero => intro st; exact Nat.le_refl _
  | succ n ih =>
      intro st
      unfold scanDigitsAux
      split
      · have h1 := ih (advance st)
        rw [advance_pos] at h1
        omega
      · exact Nat.le_refl _

theorem scanDigits_pos_lt (st : LexerState) (h1 : st.pos < st.src.length)
    (h2 : isdigit (st.src.getD st.pos ' ') = true) : st.pos < (scanDigits st).pos := by
  unfold scanDigits
  obtain ⟨f, hf⟩ : ∃ f, st.src.length - st.pos = f + 1 :=
    ⟨st.src.length - st.pos - 1, by omega⟩
  rw [hf]
  unfold scanDigitsAux
  rw [if_pos ⟨h1, h2⟩]
  have h3 := scanDigitsAux_pos_le f (advance st)
  rw [advance_pos] at h3
  omega

theorem number_value_shape (w : LexerState) (h1 : w.pos < w.src.length)
    (h2 : isdigit (w.src.getD w.pos ' ') = true) :
    ∃ rest : List Char,
      (number w).1.value = String.mk (w.src.getD w.pos ' ' :: rest) := by
  refine ⟨(w.src.drop (w.pos + 1)).take ((scanDigits w).pos - w.pos - 1), ?_⟩
  have hq := scanDigits_pos_lt w h1 h2
  have hdrop : w.src.drop w.pos = w.src.getD w.pos ' ' :: w.src.drop (w.pos + 1) := by
    rw [List.getD_eq_getElem w.src ' ' h1]
    exact List.drop_eq_getElem_cons h1
  have hk : (scanDigits w).pos - w.pos = ((scanDigits w).pos - w.pos - 1) + 1 := by omega
  simp only [number]
  rw [hdrop, hk, List.take_succ_cons]
  simp

theorem stoi_digit_head (d : Char) (rest : List Char) (hd : isdigit d = true) :
    stoi (String.mk (d :: rest)) ≠ Except.error StoiError.invalidArgument := by
  have hs : isspace d = false := by
    simp only [isdigit, decide_eq_true_eq] at hd
    simp only [isspace, decide_eq_false_iff_not]
    omega
  have hm : ¬ d = '-' := by
    intro e; rw [e] at hd; exact absurd hd (by decide)
  have hp : ¬ d = '+' := by
    intro e; rw [e] at hd; exact absurd hd (by decide)
  have hdata : (String.mk (d :: rest)).data = d :: rest := rfl
  simp only [stoi, hdata, List.dropWhile_cons, hs, Bool.false_eq_true, if_false,
    List.headD_cons, hm, hp, or_self, List.takeWhile_cons, hd, if_true]
  intro h
  split at h
  · rename_i hnil
    exact List.cons_ne_nil _ _ hnil
  · split at h
    · exact absurd h (by simp)
    · exact absurd h (by simp)

theorem nextToken_number_head (st : LexerState) :
    (nextToken st).1.type = TokenType.Number →
    ∃ d rest, isdigit d = true ∧ (nextToken st).1.value = String.mk (d :: rest) := by
  simp only [nextToken]
  split
  · rename_i hlen
    split
    · intro h
      simp only [identifier] at h
      split at h
      · exact TokenType.noConfusion h
      · exact TokenType.noConfusion h
    · split
      · rename_i hnal hdig
        intro h
        obtain ⟨rest, hv⟩ := number_value_shape _ hlen hdig
        exact ⟨_, rest, hdig, hv⟩
      · split
        · intro h
          exact TokenType.noConfusion h
        · intro h
          exact TokenType.noConfusion h
  · intro h
    exact TokenType.noConfusion h

/-! ## Claims -/

/-- C1: parsing the input "int x = 42;" with parseDeclaration succeeds,
yielding the declaration for int x with the number 42 as the value
child, and rendering the resulting AST at indent 0 produces exactly the
line "Declaration: int x" followed by the line "  Number: 42", with the
child line left-padded with exactly two spaces and each line terminated
by a newline. -/
theorem c1_roundtrip_render :
    parseDeclaration (mkParser (initLexer "int x = 42;")) =
      ParseResult.ok (ASTNode.declaration "int" "x" (some (ASTNode.number 42)))
        ⟨⟨"int x = 42;".data, 11, 1, 10⟩, ⟨TokenType.EndOfFile, "", 1, 10⟩⟩ ∧
    render (ASTNode.declaration "int" "x" (some (ASTNode.number 42))) 0 =
      "Declaration: int x\n  Number: 42\n" :=
  ⟨rfl, rfl⟩

/-- C2: repeatedly calling nextToken on a Lexer over "int x = 42;"
yields exactly the kind/text sequence Keyword int, Identifier x,
Symbol =, Number 42, Symbol ;, EndOfFile with empty text. -/
theorem c2_token_sequence :
    (lexN 6 (initLexer "int x = 42;")).map (fun t => (t.type, t.value)) =
      [(TokenType.Keyword, "int"), (TokenType.Identifier, "x"),
       (TokenType.Symbol, "="), (TokenType.Number, "42"),
       (TokenType.Symbol, ";"), (TokenType.EndOfFile, "")] := by
  decide

/-- C3: for every lexer state, the token returned by nextToken carries
exactly the line and column fields of the lexer cursor after the whole
lexeme was consumed, for every token kind, including the Symbol and
Unknown kinds whose consumption bypasses the advance method. -/
theorem c3_position_after_lexeme (st : LexerState) :
    ((nextToken st).1.line = (nextToken st).2.line) ∧
    ((nextToken st).1.column = (nextToken st).2.column) := by
  unfold nextToken identifier number symbol
  dsimp only
  split
  · split
    · exact ⟨rfl, rfl⟩
    · split
      · exact ⟨rfl, rfl⟩
      · split
        · exact ⟨rfl, rfl⟩
        · exact ⟨rfl, rfl⟩
  · exact ⟨rfl, rfl⟩

/-- C8: parsing "int x 42;" fails at the AfterName checkpoint: the
first two tokens are Keyword int and Identifier x, the third token is
Number 42 rather than Symbol =, the result is the nullptr return with
the AfterName diagnostic, and no AST is produced (the err constructor
carries no AST). -/
theorem c8_missing_equals :
    parseDeclaration (mkParser (initLexer "int x 42;")) =
      ParseResult.err "Expected \x27=\x27 after identifier\n"
        ⟨⟨"int x 42;".data, 8, 1, 9⟩, ⟨TokenType.Number, "42", 1, 9⟩⟩ ∧
    (lexN 3 (initLexer "int x 42;")).map (fun t => (t.type, t.value)) =
      [(TokenType.Keyword, "int"), (TokenType.Identifier, "x"),
       (TokenType.Number, "42")] :=
  ⟨rfl, by decide⟩

/-- C7: a token produced by nextToken is a Keyword exactly when its
lexeme is "int" or "return" (first conjunct); and whenever the
character reached after whitespace skipping is alphabetic — so the
token is the maximal alphanumeric run scanned from it — the token is
classified Keyword when the lexeme is exactly one of the two keywords
and Identifier otherwise (second conjunct), so runs such as "integer"
or "returns" yield Identifier, with no partial-keyword matching. -/
theorem c7_keyword_iff (st : LexerState) :
    ((nextToken st).1.type = TokenType.Keyword ↔
      ((nextToken st).1.value = "int" ∨ (nextToken st).1.value = "return")) ∧
    ((skipWs st).pos < (skipWs st).src.length →
      isalpha ((skipWs st).src.getD (skipWs st).pos ' ') = true →
      (nextToken st).1.type =
        if (nextToken st).1.value = "int" ∨ (nextToken st).1.value = "return"
        then TokenType.Keyword else TokenType.Identifier) := by
  constructor
  case right =>
    intro hlen halpha
    simp only [nextToken]
    rw [if_pos hlen, if_pos halpha]
    simp only [identifier]
  simp only [nextToken]
  split
  · rename_i hlen
    split
    · -- identifier branch: the classification is the ite being tested
      simp only [identifier]
      split
      · rename_i hval
        exact iff_of_true rfl hval
      · rename_i hval
        exact iff_of_false (by intro h; exact TokenType.noConfusion h) hval
    · split
      · -- number branch: the lexeme starts with a digit
        rename_i hnal hdig
        obtain ⟨rest, hv⟩ := number_value_shape _ hlen hdig
        refine iff_of_false (by intro h; exact TokenType.noConfusion h) ?_
        rw [hv]
        rintro (h | h)
        · have hdat : (skipWs st).src.getD (skipWs st).pos ' ' :: rest =
              ['i', 'n', 't'] := congrArg String.data h
          injection hdat with hc hr
          rw [hc] at hdig
          exact absurd hdig (by decide)
        · have hdat : (skipWs st).src.getD (skipWs st).pos ' ' :: rest =
              ['r', 'e', 't', 'u', 'r', 'n'] := congrArg String.data h
          injection hdat with hc hr
          rw [hc] at hdig
          exact absurd hdig (by decide)
      · split
        · -- symbol branch: a single-character lexeme
          refine iff_of_false (by intro h; exact TokenType.noConfusion h) ?_
          rintro (h | h)
          · have hdat : [(skipWs st).src.getD (skipWs st).pos ' '] =
                ['i', 'n', 't'] := congrArg String.data h
            injection hdat with hc hr
            exact List.noConfusion hr
          · have hdat : [(skipWs st).src.getD (skipWs st).pos ' '] =
                ['r', 'e', 't', 'u', 'r', 'n'] := congrArg String.data h
            injection hdat with hc hr
            exact List.noConfusion hr
        · -- unknown branch: a single-character lexeme
          refine iff_of_false (by intro h; exact TokenType.noConfusion h) ?_
          rintro (h | h)
          · have hdat : [(skipWs st).src.getD (skipWs st).pos ' '] =
                ['i', 'n', 't'] := congrArg String.data h
            injection hdat with hc hr
            exact List.noConfusion hr
          · have hdat : [(skipWs st).src.getD (skipWs st).pos ' '] =
                ['r', 'e', 't', 'u', 'r', 'n'] := congrArg String.data h
            injection hdat with hc hr
            exact List.noConfusion hr
  · -- end of input: the empty lexeme
    refine iff_of_false (by intro h; exact TokenType.noConfusion h) ?_
    rintro (h | h)
    · have hdat : ([] : List Char) = ['i', 'n', 't'] := congrArg String.data h
      exact List.noConfusion hdat
    · have hdat : ([] : List Char) = ['r', 'e', 't', 'u', 'r', 'n'] := congrArg String.data h
      exact List.noConfusion hdat

/-- C7 witness: on the input "integer" the first character is
alphabetic, and the scanned run "integer" is not a keyword, so the
classification ite resolves to Identifier. -/
theorem c7_keyword_iff_witness :
    (nextToken (initLexer "integer")).1.type =
      if (nextToken (initLexer "integer")).1.value = "int" ∨
          (nextToken (initLexer "integer")).1.value = "return"
      then TokenType.Keyword else TokenType.Identifier :=
  (c7_keyword_iff (initLexer "integer")).2 (by decide) (by decide)

/-- C5 counterexample: the input "int x = 99999999999;" passes the
first four checkpoints (the fourth token is Number "99999999999"), yet
the conversion of the lexeme fails: std.stoi raises out_of_range
because the value exceeds INT_MAX, so the conversion of a Number lexeme
can fail, refuting the claim that it never does. -/
theorem c5_out_of_range_cex :
    isOutOfRangeExn (parseDeclaration (mkParser (initLexer "int x = 99999999999;"))) = true ∧
    (pAdvance (pAdvance (pAdvance (mkParser (initLexer "int x = 99999999999;"))))).current =
      ⟨TokenType.Number, "99999999999", 1, 19⟩ :=
  ⟨rfl, rfl⟩

/-- C5 amended: for every input, the invalid_argument conversion-error
path of std.stoi is unreachable in parseDeclaration, because the Lexer
only emits nonempty digit runs as Number tokens; only the out_of_range
failure remains possible. -/
theorem c5_no_invalid_argument (ls : LexerState) :
    isInvalidArgExn (parseDeclaration (mkParser ls)) = false := by
  unfold parseDeclaration
  dsimp only
  split
  · split
    · rfl
    · split
      · rfl
      · split
        · rfl
        · rename_i hN
          split
          · rename_i e heq
            cases e with
            | outOfRange => rfl
            | invalidArgument =>
                rw [not_not] at hN
                simp only [pAdvance] at hN heq
                obtain ⟨d, rest, hdd, hv⟩ := nextToken_number_head _ hN
                rw [hv] at heq
                exact absurd heq (stoi_digit_head d rest hdd)
          · split
            · rfl
            · rfl
  · rfl

/-- C6 counterexample: parsing "int 42;" fails at the AfterType
checkpoint with offending token Number "42", but the emitted diagnostic
is the fixed string for that checkpoint and does not contain the
offending token text "42"; so the diagnostic carries the offending
token text only at the first checkpoint, not at every one. -/
theorem c6_checkpoint_diags_cex :
    parseDeclaration (mkParser (initLexer "int 42;")) =
      ParseResult.err "Expected identifier after \x27int\x27\n"
        ⟨⟨"int 42;".data, 6, 1, 7⟩, ⟨TokenType.Number, "42", 1, 7⟩⟩ ∧
    containsStr "Expected identifier after \x27int\x27\n" "42" = false :=
  ⟨rfl, by decide⟩

/-- C6 amended: every failure of parseDeclaration is terminal, returns
the absent result (the err constructor carries no AST), and emits one
diagnostic determined by the failing checkpoint: the Start-checkpoint
diagnostic contains the offending token text, while the other four
checkpoints emit fixed strings that name the expected form but not the
offending token text. The returned state carries the offending token as
its current token. -/
theorem c6_terminal_diag (p : ParserState) (d : String) (stf : ParserState)
    (h : parseDeclaration p = ParseResult.err d stf) :
    d = "Unexpected token: " ++ stf.current.value ++ "\n" ∨
    d = "Expected identifier after \x27int\x27\n" ∨
    d = "Expected \x27=\x27 after identifier\n" ∨
    d = "Expected number after \x27=\x27\n" ∨
    d = "Expected \x27;\x27 at the end of declaration\n" := by
  unfold parseDeclaration at h
  dsimp only at h
  split at h
  · split at h
    · injection h with h1 h2
      subst h1
      right; left; rfl
    · split at h
      · injection h with h1 h2
        subst h1
        right; right; left; rfl
      · split at h
        · injection h with h1 h2
          subst h1
          right; right; right; left; rfl
        · split at h
          · exact ParseResult.noConfusion h
          · split at h
            · injection h with h1 h2
              subst h1
              right; right; right; right; rfl
            · exact ParseResult.noConfusion h
  · injection h with h1 h2
    subst h1
    subst h2
    left; rfl

/-- C6 amended witness: on the input "foo" the parse fails at the Start
checkpoint and the diagnostic is the Start message carrying the
offending token text. -/
theorem c6_terminal_diag_witness :
    "Unexpected token: foo\n" =
        "Unexpected token: " ++
          (⟨⟨"foo".data, 3, 1, 4⟩,
            ⟨TokenType.Identifier, "foo", 1, 4⟩⟩ : ParserState).current.value ++ "\n" ∨
    "Unexpected token: foo\n" = "Expected identifier after \x27int\x27\n" ∨
    "Unexpected token: foo\n" = "Expected \x27=\x27 after identifier\n" ∨
    "Unexpected token: foo\n" = "Expected number after \x27=\x27\n" ∨
    "Unexpected token: foo\n" = "Expected \x27;\x27 at the end of declaration\n" :=
  c6_terminal_diag (mkParser (initLexer "foo")) "Unexpected token: foo\n"
    ⟨⟨"foo".data, 3, 1, 4⟩, ⟨TokenType.Identifier, "foo", 1, 4⟩⟩ rfl

/-- C4: whenever parseDeclaration returns a present result, that result
is a DeclarationNode with type "int", the name taken from the
Identifier token, and a non-null value child that is a NumberNode
holding exactly the integer std.stoi parsed from the Number token
lexeme; the failing constructors of ParseResult carry no AST, so no
partially constructed Declaration is ever returned. -/
theorem c4_success_shape (p : ParserState) (ast : ASTNode) (stf : ParserState)
    (h : parseDeclaration p = ParseResult.ok ast stf) :
    ∃ v : Int,
      stoi (pAdvance (pAdvance (pAdvance p))).current.value = Except.ok v ∧
      (pAdvance (pAdvance (pAdvance p))).current.type = TokenType.Number ∧
      ast = ASTNode.declaration "int" (pAdvance p).current.value
        (some (ASTNode.number v)) := by
  unfold parseDeclaration at h
  dsimp only at h
  split at h
  · rename_i hstart
    split at h
    · exact ParseResult.noConfusion h
    · split at h
      · exact ParseResult.noConfusion h
      · split at h
        · exact ParseResult.noConfusion h
        · rename_i hnum
          split at h
          · exact ParseResult.noConfusion h
          · rename_i v hstoi
            split at h
            · exact ParseResult.noConfusion h
            · injection h with h1 h2
              rw [not_not] at hnum
              refine ⟨v, hstoi, hnum, ?_⟩
              rw [← h1, hstart.2]
  · exact ParseResult.noConfusion h

/-- C4 witness: instantiated on the input "int x = 42;". -/
theorem c4_success_shape_witness :
    ∃ v : Int,
      stoi (pAdvance (pAdvance (pAdvance
          (mkParser (initLexer "int x = 42;"))))).current.value = Except.ok v ∧
      (pAdvance (pAdvance (pAdvance
          (mkParser (initLexer "int x = 42;"))))).current.type = TokenType.Number ∧
      (ASTNode.declaration "int" "x" (some (ASTNode.number 42)) : ASTNode) =
        ASTNode.declaration "int"
          (pAdvance (mkParser (initLexer "int x = 42;"))).current.value
          (some (ASTNode.number v)) :=
  c4_success_shape (mkParser (initLexer "int x = 42;"))
    (ASTNode.declaration "int" "x" (some (ASTNode.number 42)))
    ⟨⟨"int x = 42;".data, 11, 1, 10⟩, ⟨TokenType.EndOfFile, "", 1, 10⟩⟩ rfl

theorem updateAssoc_find (l : List (String × String)) (n t m : String) :
    (updateAssoc l n t).find? (fun p => p.1 = m) =
      if m = n then some (n, t) else l.find? (fun p => p.1 = m) := by
  induction l with
  | nil =>
      by_cases h : m = n
      · subst h
        simp [updateAssoc]
      · have h2 : ¬ n = m := fun e => h (Eq.symm e)
        simp [updateAssoc, h, h2]
  | cons a rest ih =>
      obtain ⟨k, v⟩ := a
      simp only [updateAssoc]
      split
      · rename_i hk
        subst hk
        by_cases h : m = k
        · subst h
          simp
        · have h2 : ¬ k = m := fun e => h (Eq.symm e)
          simp [List.find?_cons, h, h2]
      · rename_i hk
        by_cases h : m = n
        · subst h
          simp [List.find?_cons, hk, ih]
        · by_cases h2 : k = m
          · subst h2
            simp [List.find?_cons, hk]
          · simp [List.find?_cons, h2, ih, h]

theorem declare_typeOf (tbl : SymbolTable) (n t m : String) :
    (tbl.declare n t).typeOf m = if m = n then t else tbl.typeOf m := by
  unfold SymbolTable.typeOf SymbolTable.declare
  rw [updateAssoc_find]
  by_cases h : m = n <;> simp [h]

theorem declare_existsName (tbl : SymbolTable) (n t m : String) :
    (tbl.declare n t).existsName m = if m = n then true else tbl.existsName m := by
  unfold SymbolTable.existsName SymbolTable.declare
  rw [updateAssoc_find]
  by_cases h : m = n <;> simp [h]

theorem runDeclares_typeOf_aux (ops : List (String × String)) :
    ∀ (tbl : SymbolTable) (n : String),
      (ops.foldl (fun t p => t.declare p.1 p.2) tbl).typeOf n =
        match ops.reverse.find? (fun p => p.1 = n) with
        | some p => p.2
        | none => tbl.typeOf n := by
  induction ops with
  | nil => intro tbl n; rfl
  | cons a rest ih =>
      intro tbl n
      simp only [List.foldl_cons, List.reverse_cons]
      rw [ih, List.find?_append]
      cases hfind : rest.reverse.find? (fun p => p.1 = n) with
      | some q => simp [Option.or]
      | none =>
          simp only [Option.or]
          rw [declare_typeOf]
          by_cases h : a.1 = n
          · simp [List.find?_cons, h]
          · have hna : ¬ n = a.1 := fun e => h (Eq.symm e)
            simp [List.find?_cons, h, hna]

theorem runDeclares_existsName_aux (ops : List (String × String)) :
    ∀ (tbl : SymbolTable) (n : String),
      ((ops.foldl (fun t p => t.declare p.1 p.2) tbl).existsName n = true ↔
        (∃ t, (n, t) ∈ ops) ∨ tbl.existsName n = true) := by
  induction ops with
  | nil => intro tbl n; simp
  | cons a rest ih =>
      intro tbl n
      obtain ⟨k, v⟩ := a
      simp only [List.foldl_cons]
      rw [ih, declare_existsName]
      by_cases h : n = k
      · subst h
        simp
      · simp only [h, if_false, List.mem_cons, Prod.mk.injEq]
        constructor
        · rintro (⟨t0, ht0⟩ | htbl)
          · exact Or.inl ⟨t0, Or.inr ht0⟩
          · exact Or.inr htbl
        · rintro (⟨t0, (⟨he, -⟩ | ht0)⟩ | htbl)
          · exact he.elim
          · exact Or.inl ⟨t0, ht0⟩
          · exact Or.inr htbl

/-- C9: after any sequence of declare calls starting from the empty
table, a name exists exactly when some declare for it occurred, and
typeOf returns the type of the last declare for that name, or the empty
string when none occurred: a repeated declare silently overwrites and
the last write wins. lastDeclaredType is the spec-side description of
the last write. -/
theorem c9_declare_fold (ops : List (String × String)) (n : String) :
    ((runDeclares ops).existsName n = true ↔ ∃ t, (n, t) ∈ ops) ∧
    (runDeclares ops).typeOf n = lastDeclaredType n ops := by
  constructor
  · rw [runDeclares, runDeclares_existsName_aux]
    simp [SymbolTable.empty, SymbolTable.existsName]
  · rw [runDeclares, runDeclares_typeOf_aux, lastDeclaredType]
    cases h : ops.reverse.find? (fun p => p.1 = n) with
    | some q => rfl
    | none => rfl

/-- C10: declare modifies only the mapping of the declared name: for
every other name m, existsName and typeOf are unchanged by the call; in
this embedding existsName and typeOf are functions of the table value,
so they leave the table itself unchanged by construction. -/
theorem c10_declare_frame (tbl : SymbolTable) (n t m : String) (h : ¬ m = n) :
    (tbl.declare n t).existsName m = tbl.existsName m ∧
    (tbl.declare n t).typeOf m = tbl.typeOf m := by
  rw [declare_existsName, declare_typeOf]
  simp [h]

/-- C10 witness: a table holding a, declaring x, queried at a. -/
theorem c10_declare_frame_witness :
    ((⟨[("a", "int")]⟩ : SymbolTable).declare "x" "int").existsName "a" =
        (⟨[("a", "int")]⟩ : SymbolTable).existsName "a" ∧
    ((⟨[("a", "int")]⟩ : SymbolTable).declare "x" "int").typeOf "a" =
        (⟨[("a", "int")]⟩ : SymbolTable).typeOf "a" :=
  c10_declare_frame ⟨[("a", "int")]⟩ "x" "int" "a" (by decide)

end FrontEnd
